import Mathlib

set_option maxRecDepth 40000

/-!
Verification of the candidate-validation agent (`agent/main.py`, `agent/tools.py`).

The development shallowly embeds the Python source: external effects
(the `ast` parser, `os.makedirs`, file writes, `pytest` subprocesses, git
worktree commands, the wall clock, the LLM generator, the interactive
confirmation answer and the thread-pool completion order) are supplied as
explicit environment records, and each embedded function is a pure Lean
function of its inputs and that environment.  Paths are modelled as the
strings the Python code manipulates, with `os.path` primitives
(`join`, `relpath`, `dirname`, `normpath`, `isabs`, `str.startswith`)
re-implemented over the POSIX string semantics the code relies on.
-/

/-! ### POSIX path-string primitives (os.path / str methods)

All string primitives are implemented by structural recursion over the
code-point list `String.data`, matching Python's code-point string
semantics and keeping every definition kernel-reducible. -/

deriving instance DecidableEq for Except

/-- Python `s.startswith(p)`: `p` is a prefix of the character sequence `s`. -/
def pyStartsWith (s p : String) : Bool :=
  p.data.isPrefixOf s.data

/-- Python `os.path.isabs`: the path begins with a slash. -/
def pyIsAbs (s : String) : Bool :=
  pyStartsWith s "/"

/-- Python `s.endswith('/')`. -/
def endsWithSlash (s : String) : Bool :=
  match s.data.getLast? with
  | some c => c = '/'
  | none => false

/-- Python `os.path.join(a, b)` for a single pair, POSIX rules:
an absolute second component discards the first. -/
def pyJoin (a b : String) : String :=
  if pyIsAbs b then b
  else if a = "" then b
  else if endsWithSlash a then a ++ b
  else a ++ "/" ++ b

/-- Helper of `splitOnChar`: accumulate the current piece (reversed). -/
def splitCharAux (sep : Char) : List Char → List Char → List String
  | acc, [] => [String.mk acc.reverse]
  | acc, c :: rest =>
    if c = sep then String.mk acc.reverse :: splitCharAux sep [] rest
    else splitCharAux sep (c :: acc) rest

/-- Python `s.split(sep)` for a one-character separator. -/
def splitOnChar (sep : Char) (s : String) : List String :=
  splitCharAux sep [] s.data

/-- Split a path into its non-empty `/`-separated components. -/
def pathComps (s : String) : List String :=
  (splitOnChar '/' s).filter (fun c => !(c == ""))

/-- Join path components with `/`. -/
def joinComps : List String → String
  | [] => ""
  | [c] => c
  | c :: d :: rest => c ++ "/" ++ joinComps (d :: rest)

/-- Python whitespace (`str.strip` default set). -/
def isPyWhitespace (c : Char) : Bool :=
  c = ' ' || c = '\t' || c = '\n' || c = '\r' || c = '\x0b' || c = '\x0c'

/-- Python `s.strip()`. -/
def pyStrip (s : String) : String :=
  String.mk (((s.data.dropWhile isPyWhitespace).reverse.dropWhile isPyWhitespace).reverse)

/-- Python `s.lower()` over ASCII letters. -/
def pyLower (s : String) : String :=
  String.mk (s.data.map Char.toLower)

/-- Drop the longest common prefix of two component lists
(the helper inside `os.path.relpath`). -/
def dropCommonPrefix : List String → List String → List String × List String
  | a :: as, b :: bs => if a = b then dropCommonPrefix as bs else (a :: as, b :: bs)
  | as, bs => (as, bs)

/-- Python `os.path.relpath(path, start)` on already-absolute, already-normal
paths: walk up with `..` for every component of `start` past the common
prefix, then down into `path`. -/
def relpath (path start : String) : String :=
  let pc := pathComps path
  let sc := pathComps start
  let ps := dropCommonPrefix pc sc
  let rel := List.replicate ps.2.length ".." ++ ps.1
  if rel.isEmpty then "." else joinComps rel

/-- Stack step of `os.path.normpath`: resolve `.` and `..` components. -/
def normStack (absFlag : Bool) : List String → List String → List String
  | acc, [] => acc.reverse
  | acc, c :: rest =>
    if c = "." then normStack absFlag acc rest
    else if c = ".." then
      match acc with
      | [] => if absFlag then normStack absFlag [] rest else normStack absFlag [".."] rest
      | top :: below =>
        if top = ".." then normStack absFlag (".." :: top :: below) rest
        else normStack absFlag below rest
    else normStack absFlag (c :: acc) rest

/-- Python `os.path.normpath`. -/
def normpath (s : String) : String :=
  let a := pyIsAbs s
  let comps := normStack a [] (pathComps s)
  if a then "/" ++ joinComps comps
  else if comps.isEmpty then "." else joinComps comps

/-- Drop trailing copies of a character. -/
def dropTrailing (c : Char) (l : List Char) : List Char :=
  (l.reverse.dropWhile (fun x => x = c)).reverse

/-- Python `os.path.dirname`. -/
def dirname (s : String) : String :=
  let cs := s.data
  match cs.reverse.findIdx? (fun c => c = '/') with
  | none => ""
  | some k =>
    let head := cs.take (cs.length - k)
    if head.all (fun c => c = '/') then String.mk head
    else String.mk (dropTrailing '/' head)

/-- `sub` occurs as a contiguous substring of `s`
(Python's `sub in s` over code points). -/
def strContains (s sub : String) : Prop :=
  sub.data <:+: s.data

instance (s sub : String) : Decidable (strContains s sub) :=
  List.decidableInfix sub.data s.data

/-! ### Data model: validation results (`validate_candidate` return dicts)

The Python function returns plain dicts with a `"status"` string, an error
`"message"`, and — only on success — a `"code"` entry.  There is no other
key; in particular no candidate identifier. -/

/-- The dict returned by `validate_candidate`: status string
(`"success"`, `"syntax_error"`, `"test_failure"`, `"file_error"`),
diagnostic message, and the validated source text (present only on
success). -/
structure VResult where
  status : String
  message : String
  code : Option String
deriving DecidableEq

/-- `SyntaxError` data surfaced by `ast.parse`: line number, parser message,
and the text of the offending line (possibly absent). -/
structure SynErr where
  lineno : Nat
  msg : String
  text : Option String
deriving DecidableEq

/-- Outcome of `ast.parse(code)`. -/
inductive ParseOutcome
  | ok
  | synErr (e : SynErr)
  | otherErr (s : String)
deriving DecidableEq

/-- Environment of external effects used by one `validate_candidate` run:
the parser, `os.makedirs`, file writes, and the `pytest` subprocess
(`Except.error` models a raised exception; the pytest payload is
`(returncode == 0, stdout + stderr)`). -/
structure ValEnv where
  parse : String → ParseOutcome
  makedirs : String → Except String Unit
  writeFile : String → String → Except String Unit
  pytest : String → String → Except String (Bool × String)

/-- The diagnostic string built by `validate_python_code` for a
`SyntaxError` (tools.py lines 68-75): f-string with `e.lineno`, `e.msg`
and `e.text.strip()` (or `"Unknown Code"` when `e.text` is falsy). -/
def synMessage (e : SynErr) : String :=
  let errorLine := match e.text with
    | some t => if t = "" then "Unknown Code" else pyStrip t
    | none => "Unknown Code"
  "Syntax Error on line " ++ toString e.lineno ++ ": " ++ e.msg ++ "\n" ++
    "OFFENDING CODE: >> " ++ errorLine ++ " <<\n" ++
    "Requirement: Ensure indentation is 4 spaces and brackets match."

/-- `validate_python_code` (tools.py 60-77): run the parser, return
`(is_valid, error_message_with_context)`. -/
def validate_python_code (parse : String → ParseOutcome) (code : String) : Bool × String :=
  match parse code with
  | .ok => (true, "")
  | .synErr e => (false, synMessage e)
  | .otherErr s => (false, "Validation Error: " ++ s)

/-- `run_pytest` (tools.py 98-117): any exception from the subprocess call
(including the 15-second timeout) is caught and reported as a failed run. -/
def run_pytest (env : ValEnv) (test_file workdir : String) : Bool × String :=
  match env.pytest test_file workdir with
  | .ok r => r
  | .error e => (false, "Test Execution Failed: " ++ e)

/-- Observable filesystem/process events of one `validate_candidate` run:
file-write attempts (with the exact path handed to `open`) and pytest
invocations. -/
inductive VEv
  | writeAttempt (path : String)
  | pytestRun (file : String) (workdir : String)
deriving DecidableEq

/-- `validate_candidate` (main.py 101-135).  Returns the result dict plus
the event trace; `Except.error` models an exception escaping the function
(only `os.makedirs` is called outside any `try`). -/
def validate_candidate (env : ValEnv) (wt_path target_file code : String)
    (test_code : Option String) : Except String (VResult × List VEv) :=
  let rel := if pyIsAbs target_file then relpath target_file wt_path else target_file
  let full := pyJoin wt_path rel
  match env.makedirs (dirname full) with
  | .error e => .error e
  | .ok _ =>
    match env.writeFile full code with
    | .error e => .ok (⟨"file_error", e, none⟩, [.writeAttempt full])
    | .ok _ =>
      let vr := validate_python_code env.parse code
      if vr.1 = false then
        .ok (⟨"syntax_error", vr.2, none⟩, [.writeAttempt full])
      else
        let runTests := match test_code with
          | some t => !(t == "")
          | none => false
        if runTests then
          let t := test_code.getD ""
          let tfile := pyJoin wt_path "sandbox/test_candidate.py"
          match env.makedirs (dirname tfile) with
          | .error e => .error e
          | .ok _ =>
            match env.writeFile tfile t with
            | .error e =>
              .ok (⟨"file_error", e, none⟩, [.writeAttempt full, .writeAttempt tfile])
            | .ok _ =>
              let pr := run_pytest env "sandbox/test_candidate.py" wt_path
              let evs := [VEv.writeAttempt full, .writeAttempt tfile,
                .pytestRun "sandbox/test_candidate.py" wt_path]
              if pr.1 = false then .ok (⟨"test_failure", pr.2, none⟩, evs)
              else .ok (⟨"success", "", some code⟩, evs)
        else
          .ok (⟨"success", "", some code⟩, [.writeAttempt full])

/-! ### Parallel Validation Coordinator (`ParallelValidator.run_validations`)

Each submitted task is a deterministic outcome (its function either returns
a result dict or raises).  `as_completed` yields futures in an arbitrary
completion order, modelled by a list of task indices; `future.result()`
re-raises a task's exception in the collecting loop. -/

/-- Collection loop of `run_validations`: walk the completion order,
appending `future.result()` for each finished future; an errored future
re-raises at the `future.result()` call. -/
def runValsGo (tasks : List (Except String VResult)) :
    List Nat → List VResult → Except String (List VResult)
  | [], acc => .ok acc
  | i :: rest, acc =>
    match tasks[i]? with
    | some (.ok r) => runValsGo tasks rest (acc ++ [r])
    | some (.error e) => .error e
    | none => runValsGo tasks rest acc

/-- `ParallelValidator.run_validations` (tools.py 214-224), with the
nondeterministic completion order passed explicitly. -/
def run_validations (order : List Nat) (tasks : List (Except String VResult)) :
    Except String (List VResult) :=
  runValsGo tasks order []

/-! ### Isolated Workspace Manager (`WorktreeManager`) -/

/-- Outcome of the `git worktree remove --force` subprocess inside
`cleanup_worktree`: the command can succeed (directory gone), exit non-zero
(directory kept; the code ignores the return code), or raise
(e.g. `git` missing), which the code catches and logs. -/
inductive GitRemoveOut
  | removed
  | failed
  | raised (msg : String)
deriving DecidableEq

/-- External effects of the worktree manager: the two git subprocesses,
`shutil.rmtree(..., ignore_errors=True)` (`true` = directory actually
removed), and `int(time.time())`. -/
structure MEnv where
  gitRemove : String → GitRemoveOut
  rmtree : String → Bool
  gitAdd : String → String → Except String Unit
  time : Nat

/-- Contents of `.agent_worktrees`: each existing workspace directory,
tagged with the branch it was checked out on. -/
abbrev MgrState := List (String × String)

/-- `os.path.exists` on a workspace directory. -/
def hasDir (st : MgrState) (n : String) : Bool :=
  st.any (fun p => p.1 == n)

/-- Remove a workspace directory from the tree. -/
def removeDir (st : MgrState) (n : String) : MgrState :=
  st.filter (fun p => !(p.1 == n))

/-- Create/overwrite a workspace directory with the given branch tag. -/
def setDir (st : MgrState) (n v : String) : MgrState :=
  removeDir st n ++ [(n, v)]

/-- Branch tag of the workspace directory `n`, if it exists. -/
def lookupDir (st : MgrState) (n : String) : Option String :=
  (st.find? (fun p => p.1 == n)).map (fun p => p.2)

/-- `WorktreeManager.cleanup_worktree` (tools.py 185-199): early return when
the directory is gone; `git worktree remove --force` inside
`try/except` (warnings only); `finally:` a forced
`shutil.rmtree(..., ignore_errors=True)` if the directory is still there.
The `Except` result records whether an exception escapes to the caller. -/
def cleanup_worktree (env : MEnv) (st : MgrState) (name : String) :
    Except String MgrState :=
  if hasDir st name = false then .ok st
  else
    let st1 := match env.gitRemove name with
      | .removed => removeDir st name
      | .failed => st
      | .raised _ => st
    let st2 := if hasDir st1 name then
        (if env.rmtree name then removeDir st1 name else st1)
      else st1
    .ok st2

/-- The branch name `f"agent-{name}-{int(time.time())}"`. -/
def mkBranch (name : String) (t : Nat) : String :=
  "agent-" ++ name ++ "-" ++ toString t

/-- The worktree path handed back to the caller. -/
def wtPathM (name : String) : String :=
  ".agent_worktrees/" ++ name

/-- `WorktreeManager.create_worktree` (tools.py 165-183): destroy any
pre-existing directory of the same name, then `git worktree add -b` a
fresh timestamp-suffixed branch; a failing git command becomes a raised
`RuntimeError`.  The manager state is returned alongside so that partial
effects of a failed creation are visible. -/
def create_worktree (env : MEnv) (st : MgrState) (name : String) :
    Except String String × MgrState :=
  match (if hasDir st name then cleanup_worktree env st name else .ok st) with
  | .error e => (.error e, st)
  | .ok st1 =>
    match env.gitAdd name (mkBranch name env.time) with
    | .error e => (.error ("Failed to create worktree: " ++ e), st1)
    | .ok _ => (.ok (wtPathM name), setDir st1 name (mkBranch name env.time))

/-! ### Selection & Apply Orchestrator (`apply_changes`) -/

/-- One generated candidate as parsed from the LLM response
(`parse_llm_response` always supplies both keys, `test_code` possibly
empty). -/
structure Candidate where
  new_code : String
  test_code : String
deriving DecidableEq

/-- The primary project tree, keyed by the path strings `apply_changes`
uses. -/
abbrev FS := List (String × String)

/-- `read_file` (tools.py 12-18): missing file reads as `""`. -/
def read_file (fs : FS) (p : String) : String :=
  ((fs.find? (fun kv => kv.1 == p)).map (fun kv => kv.2)).getD ""

/-- Overwrite `p` with content `c` in the primary tree. -/
def fsWrite (fs : FS) (p c : String) : FS :=
  (fs.filter (fun kv => !(kv.1 == p))) ++ [(p, c)]

/-- Environment of one `apply_changes` round: the absolute base path of the
repository, the generator outcome, the per-candidate outcome of
`WorktreeManager.create_worktree`, the per-candidate validation effects,
the pool completion order, and the confirmation answer. -/
structure AEnv where
  base : String
  gen : Except String (List Candidate)
  createWT : Nat → Except String Unit
  valEnv : Nat → ValEnv
  order : List Nat
  answer : String

/-- Worktree path for candidate `i`
(`base/.agent_worktrees/val-{i}`). -/
def wtPathA (env : AEnv) (i : Nat) : String :=
  pyJoin (pyJoin env.base ".agent_worktrees") ("val-" ++ toString i)

/-- Observable events of one `apply_changes` round. -/
inductive AEv
  | read (path : String)
  | created (name : String)
  | result (r : VResult)
  | writePrimary (path : String)
  | cleanupAll (names : List String)
deriving DecidableEq

/-- The worktree-creation loop of `apply_changes` (main.py 221-229):
for each candidate, `create_worktree(f"val-{i}")` — whose failure raises
out of the loop — then the validation task for that candidate's worktree.
Returns the task outcomes (or the escaping exception) together with the
names of the worktrees actually created before any failure. -/
def createLoop (env : AEnv) (tf : String) :
    List Candidate → Nat → Except String (List (Except String VResult)) × List String
  | [], _ => (.ok [], [])
  | c :: rest, i =>
    match env.createWT i with
    | .error e => (.error e, [])
    | .ok _ =>
      let name := "val-" ++ toString i
      let task := (validate_candidate (env.valEnv i) (wtPathA env i) tf
        c.new_code (some c.test_code)).map (fun x => x.1)
      let r := createLoop env tf rest (i + 1)
      ((r.1).map (fun ts => task :: ts), name :: r.2)

/-- Body of the `try:` block of `apply_changes` (main.py 208-254):
generate candidates, create worktrees, validate in parallel, pick the
first result whose status is `"success"`, and on an affirmative answer
write its code to the primary tree.  Returns (outcome, primary tree,
created worktree names, event trace). -/
def apply_body (env : AEnv) (fs : FS) (tf : String) :
    Except String Unit × FS × List String × List AEv :=
  match env.gen with
  | .error e => (.error e, fs, [], [])
  | .ok cands =>
    if cands.isEmpty then (.ok (), fs, [], [])
    else
      let cl := createLoop env tf cands 0
      let names := cl.2
      let tr0 := names.map AEv.created
      match cl.1 with
      | .error e => (.error e, fs, names, tr0)
      | .ok tasks =>
        match run_validations env.order tasks with
        | .error e => (.error e, fs, names, tr0)
        | .ok results =>
          let tr1 := tr0 ++ results.map AEv.result
          match results.find? (fun r => decide (r.status = "success")) with
          | none => (.ok (), fs, names, tr1)
          | some w =>
            if pyLower env.answer = "y" then
              (.ok (), fsWrite fs tf ((w.code).getD ""), names,
                tr1 ++ [AEv.writePrimary tf])
            else (.ok (), fs, names, tr1)

/-- The sandbox-forcing prefix adjustment of `apply_changes`
(main.py 199-201). -/
def forceSandbox (t : String) : String :=
  if pyStartsWith t "sandbox/" then t else pyJoin "sandbox" t

/-- `apply_changes` (main.py 196-258): force the sandbox path, read the
original content, run the round body, and — in a `finally:` —
`cleanup_all`, which destroys every directory found under
`.agent_worktrees` (the `pre`-existing ones and those created this
round).  Returns (outcome, primary tree, directories remaining under
`.agent_worktrees`, event trace). -/
def apply_changes (env : AEnv) (fs : FS) (pre : List String) (target_file : String) :
    Except String Unit × FS × List String × List AEv :=
  let tf := forceSandbox target_file
  let b := apply_body env fs tf
  (b.1, b.2.1, [], AEv.read tf :: b.2.2.2 ++ [AEv.cleanupAll (pre ++ b.2.2.1)])

/-- The validation results recorded in a trace, in completion order. -/
def resultsIn (tr : List AEv) : List VResult :=
  tr.filterMap (fun ev => match ev with | AEv.result r => some r | _ => none)

/-- The worktree names recorded as created in a trace. -/
def createdNames (tr : List AEv) : List String :=
  tr.filterMap (fun ev => match ev with | AEv.created n => some n | _ => none)

/-- `Except` outcome is a normal return, not a raised exception. -/
def isOkE {ε α : Type} : Except ε α → Bool
  | .ok _ => true
  | .error _ => false

/-! ### Concrete environments used as test inputs -/

/-- A validation environment in which every external effect succeeds:
the parser accepts, directory creation and file writes succeed, and the
test run exits zero. -/
def envOkVal : ValEnv where
  parse := fun _ => .ok
  makedirs := fun _ => .ok ()
  writeFile := fun _ _ => .ok ()
  pytest := fun _ _ => .ok (true, "")

/-- A round with one candidate that validates successfully and an
affirmative confirmation answer. -/
def envY : AEnv where
  base := "/repo"
  gen := .ok [⟨"x = 1", ""⟩]
  createWT := fun _ => .ok ()
  valEnv := fun _ => envOkVal
  order := [0]
  answer := "y"

/-- The round of `envY` with a negative confirmation answer. -/
def envN : AEnv where
  base := "/repo"
  gen := .ok [⟨"x = 1", ""⟩]
  createWT := fun _ => .ok ()
  valEnv := fun _ => envOkVal
  order := [0]
  answer := "n"

/-- A round with three candidates in which `create_worktree` fails for the
second candidate (index 1) and succeeds for the others. -/
def env3 : AEnv where
  base := "/repo"
  gen := .ok [⟨"a = 1", ""⟩, ⟨"b = 2", ""⟩, ⟨"c = 3", ""⟩]
  createWT := fun i => if i = 1 then .error "boom" else .ok ()
  valEnv := fun _ => envOkVal
  order := [0, 1, 2]
  answer := "y"

/-- The `SyntaxError` CPython raises for
`"def f():\n    return ((\n"`: the malformed construct is on line 2,
whose literal text is the indented `"    return (("`. -/
def eSyn : SynErr := ⟨2, "invalid syntax", some "    return ((\n"⟩

/-- The source text whose line 2 is malformed. -/
def srcSyn : String := "def f():\n    return ((\n"

/-- Validation environment whose parser rejects every input with `eSyn`
while all filesystem effects succeed. -/
def envSyn : ValEnv where
  parse := fun _ => .synErr eSyn
  makedirs := fun _ => .ok ()
  writeFile := fun _ _ => .ok ()
  pytest := fun _ _ => .ok (true, "")

/-- Manager environment in which `git worktree remove` raises, forcing the
`finally:` `rmtree` (which succeeds), and `git worktree add` succeeds. -/
def envW : MEnv where
  gitRemove := fun _ => .raised "oops"
  rmtree := fun _ => true
  gitAdd := fun _ _ => .ok ()
  time := 42

/-- Manager environment in which all git operations succeed at time 42. -/
def envT : MEnv where
  gitRemove := fun _ => .removed
  rmtree := fun _ => true
  gitAdd := fun _ _ => .ok ()
  time := 42

/-- A worktree root holding one stale workspace directory `val-0`
checked out on an old branch. -/
def stT : MgrState := [("val-0", "agent-val-0-7")]

/-! ### Helper lemmas -/

theorem strContains_mid (a b c : String) : strContains (a ++ b ++ c) b := by
  unfold strContains
  simp only [String.data_append]
  exact List.infix_append a.data b.data c.data

theorem isPrefixOf_append_self (l t : List Char) : l.isPrefixOf (l ++ t) = true :=
  List.isPrefixOf_iff_prefix.mpr (List.prefix_append l t)

theorem createdNames_append (a b : List AEv) :
    createdNames (a ++ b) = createdNames a ++ createdNames b :=
  List.filterMap_append a b _

theorem resultsIn_append (a b : List AEv) :
    resultsIn (a ++ b) = resultsIn a ++ resultsIn b :=
  List.filterMap_append a b _

theorem createdNames_map_created (ns : List String) :
    createdNames (ns.map AEv.created) = ns := by
  induction ns with
  | nil => rfl
  | cons n ns ih =>
    show n :: createdNames (List.map AEv.created ns) = n :: ns
    rw [ih]

theorem createdNames_map_result (rs : List VResult) :
    createdNames (rs.map AEv.result) = [] := by
  induction rs with
  | nil => rfl
  | cons r rs ih =>
    show createdNames (List.map AEv.result rs) = []
    exact ih

theorem resultsIn_map_created (ns : List String) :
    resultsIn (ns.map AEv.created) = [] := by
  induction ns with
  | nil => rfl
  | cons n ns ih =>
    show resultsIn (List.map AEv.created ns) = []
    exact ih

theorem resultsIn_map_result (rs : List VResult) :
    resultsIn (rs.map AEv.result) = rs := by
  induction rs with
  | nil => rfl
  | cons r rs ih =>
    show r :: resultsIn (List.map AEv.result rs) = r :: rs
    rw [ih]

/-- The result dict of `validate_candidate` carries the validated source
text exactly when the status is `"success"`. -/
theorem vc_code_spec (env : ValEnv) (wt tg c : String) (tc : Option String)
    (r : VResult) (evs : List VEv)
    (h : validate_candidate env wt tg c tc = Except.ok (r, evs)) :
    (r.status = "success" → r.code = some c) ∧
    (r.status ≠ "success" → r.code = none) := by
  simp only [validate_candidate] at h
  repeat' split at h
  all_goals simp only [Except.ok.injEq, Prod.mk.injEq, reduceCtorEq] at h
  all_goals obtain ⟨hr, he⟩ := h
  all_goals subst hr
  all_goals constructor <;> intro hs <;> simp_all

/-- When every `os.makedirs` call succeeds, `validate_candidate` never
raises: every other failure is converted into a result dict. -/
theorem vc_no_raise (env : ValEnv) (wt tg c : String) (tc : Option String)
    (h : ∀ d, env.makedirs d = Except.ok ()) :
    isOkE (validate_candidate env wt tg c tc) = true := by
  simp only [validate_candidate, h]
  repeat' split
  all_goals simp [isOkE]

/-- The value a completed future contributes to the collected list:
`some` of its result when its task returned normally. -/
def taskPick (tasks : List (Except String VResult)) (i : Nat) : Option VResult :=
  match tasks[i]? with
  | some (Except.ok r) => some r
  | _ => none

/-- When no submitted task raised, the collection loop returns the
completed results in completion order. -/
theorem runValsGo_ok (tasks : List (Except String VResult))
    (h : ∀ t ∈ tasks, isOkE t = true) :
    ∀ (order : List Nat) (acc : List VResult),
      runValsGo tasks order acc = Except.ok (acc ++ order.filterMap (taskPick tasks)) := by
  intro order
  induction order with
  | nil => intro acc; simp [runValsGo]
  | cons i rest ih =>
    intro acc
    simp only [runValsGo]
    cases hti : tasks[i]? with
    | none => simp [List.filterMap_cons, taskPick, hti, ih]
    | some t =>
      cases t with
      | ok r => simp [List.filterMap_cons, taskPick, hti, ih]
      | error e =>
        exfalso
        have hmem : Except.error e ∈ tasks := by
          obtain ⟨hl, hg⟩ := List.getElem?_eq_some_iff.mp hti
          exact hg ▸ List.getElem_mem hl
        have := h _ hmem
        simp [isOkE] at this

theorem filterMap_length_of_isSome {α β : Type} (f : α → Option β) :
    ∀ (l : List α), (∀ a ∈ l, (f a).isSome = true) →
      (l.filterMap f).length = l.length := by
  intro l
  induction l with
  | nil => intro _; rfl
  | cons a l ih =>
    intro h
    have ha := h a (by simp)
    cases hfa : f a with
    | none => rw [hfa] at ha; simp at ha
    | some b =>
      simp only [List.filterMap_cons, hfa, List.length_cons]
      rw [ih (fun x hx => h x (by simp [hx]))]

/-- When no task raised and the completion order is a permutation of the
submitted indices, `run_validations` returns one result per task. -/
theorem run_validations_all_ok (order : List Nat) (tasks : List (Except String VResult))
    (h : ∀ t ∈ tasks, isOkE t = true) (hp : order.Perm (List.range tasks.length)) :
    ∃ rs, run_validations order tasks = Except.ok rs ∧ rs.length = tasks.length := by
  refine ⟨order.filterMap (taskPick tasks), ?_, ?_⟩
  · simpa [run_validations] using runValsGo_ok tasks h order []
  · rw [filterMap_length_of_isSome]
    · exact hp.length_eq.trans (List.length_range tasks.length)
    · intro i hi
      have hlt : i < tasks.length := List.mem_range.mp (hp.mem_iff.mp hi)
      have := h tasks[i] (List.getElem_mem hlt)
      cases hg : tasks[i] with
      | ok r => simp [taskPick, List.getElem?_eq_getElem hlt, hg]
      | error e => rw [hg] at this; simp [isOkE] at this

theorem createdNames_nil : createdNames [] = [] := rfl

theorem createdNames_wp (p : String) : createdNames [AEv.writePrimary p] = [] := rfl

theorem createdNames_read_cons (p : String) (l : List AEv) :
    createdNames (AEv.read p :: l) = createdNames l := rfl

theorem createdNames_cleanup (ns : List String) : createdNames [AEv.cleanupAll ns] = [] := rfl

theorem resultsIn_read_cons (p : String) (l : List AEv) :
    resultsIn (AEv.read p :: l) = resultsIn l := rfl

theorem resultsIn_cleanup (ns : List String) : resultsIn [AEv.cleanupAll ns] = [] := rfl

theorem resultsIn_wp (p : String) : resultsIn [AEv.writePrimary p] = [] := rfl

/-- The trace of the round body records exactly the created worktree
names returned by the creation loop. -/
theorem apply_body_created (env : AEnv) (fs : FS) (tf : String) :
    createdNames (apply_body env fs tf).2.2.2 = (apply_body env fs tf).2.2.1 := by
  simp only [apply_body]
  repeat' split
  all_goals simp only [createdNames_append, createdNames_map_created, createdNames_map_result,
    createdNames_nil, createdNames_wp, List.append_nil]

/-- The round body never reads the primary tree (the read happens before
the `try:` block). -/
theorem apply_body_no_read (env : AEnv) (fs : FS) (tf p : String) :
    AEv.read p ∉ (apply_body env fs tf).2.2.2 := by
  simp only [apply_body]
  repeat' split
  all_goals intro hmem
  all_goals simp_all [List.mem_append, List.mem_map]

/-- Any primary-tree write the round body performs is at the
sandbox-forced target path. -/
theorem apply_body_write_tf (env : AEnv) (fs : FS) (tf p : String) :
    AEv.writePrimary p ∈ (apply_body env fs tf).2.2.2 → p = tf := by
  simp only [apply_body]
  repeat' split
  all_goals intro hmem
  all_goals simp_all [List.mem_append, List.mem_map]

/-- The results recorded in a full round trace are exactly those of the
round body. -/
theorem apply_changes_resultsIn (env : AEnv) (fs : FS) (pre : List String) (t : String) :
    resultsIn (apply_changes env fs pre t).2.2.2 =
      resultsIn (apply_body env fs (forceSandbox t)).2.2.2 := by
  have h1 : (apply_changes env fs pre t).2.2.2 =
      AEv.read (forceSandbox t) :: ((apply_body env fs (forceSandbox t)).2.2.2 ++
        [AEv.cleanupAll (pre ++ (apply_body env fs (forceSandbox t)).2.2.1)]) := rfl
  rw [h1, resultsIn_read_cons, resultsIn_append, resultsIn_cleanup, List.append_nil]

/-- Dichotomy of a round's effect on the primary tree: either it is left
exactly as it was (and either no recorded result succeeded or the answer
was not affirmative), or the first successful recorded result was written
to the sandbox-forced target path under an affirmative answer. -/
theorem apply_changes_fs_cases (env : AEnv) (fs : FS) (pre : List String) (t : String) :
    ((apply_changes env fs pre t).2.1 = fs ∧
      ((resultsIn (apply_changes env fs pre t).2.2.2).find?
          (fun r => decide (r.status = "success")) = none ∨ pyLower env.answer ≠ "y")) ∨
    (∃ w, (resultsIn (apply_changes env fs pre t).2.2.2).find?
          (fun r => decide (r.status = "success")) = some w ∧
      pyLower env.answer = "y" ∧
      (apply_changes env fs pre t).2.1 = fsWrite fs (forceSandbox t) ((w.code).getD "")) := by
  have hfs : (apply_changes env fs pre t).2.1 = (apply_body env fs (forceSandbox t)).2.1 := rfl
  rw [hfs, apply_changes_resultsIn]
  simp only [apply_body]
  repeat' split
  all_goals simp_all [resultsIn_map_created, resultsIn_map_result, resultsIn_append,
    resultsIn_cleanup, resultsIn_wp, resultsIn]

/-- The last event of every round is the unconditional cleanup, destroying
the pre-existing and all created worktree directories. -/
theorem apply_changes_trace_last (env : AEnv) (fs : FS) (pre : List String) (t : String) :
    (apply_changes env fs pre t).2.2.2.getLast? =
      some (AEv.cleanupAll (pre ++ createdNames (apply_changes env fs pre t).2.2.2)) := by
  have h1 : (apply_changes env fs pre t).2.2.2 =
      (AEv.read (forceSandbox t) :: (apply_body env fs (forceSandbox t)).2.2.2) ++
        [AEv.cleanupAll (pre ++ (apply_body env fs (forceSandbox t)).2.2.1)] := rfl
  rw [h1, List.getLast?_concat]
  rw [createdNames_append, createdNames_read_cons, createdNames_cleanup, List.append_nil,
    apply_body_created]

/-- Forcing the sandbox prefix of a relative path yields a path under
`sandbox/`. -/
theorem forceSandbox_rel (t : String) (h : pyStartsWith t "/" = false) :
    pyStartsWith (forceSandbox t) "sandbox/" = true := by
  unfold forceSandbox
  by_cases hs : pyStartsWith t "sandbox/" = true
  · rw [if_pos hs]; exact hs
  · rw [if_neg hs]
    unfold pyJoin
    rw [if_neg (by simp [pyIsAbs, h]), if_neg (by decide), if_neg (by decide)]
    unfold pyStartsWith
    have hd : ("sandbox" ++ "/" ++ t).data = "sandbox/".data ++ t.data := by
      rw [String.append_assoc, String.data_append]
      rfl
    rw [hd]
    exact isPrefixOf_append_self _ _

theorem cleanup_isOk (env : MEnv) (st : MgrState) (name : String) :
    ∃ st', cleanup_worktree env st name = Except.ok st' := by
  unfold cleanup_worktree
  split
  · exact ⟨st, rfl⟩
  · exact ⟨_, rfl⟩

theorem find?_filter_ne (l : MgrState) (n : String) :
    (l.filter (fun p => !(p.1 == n))).find? (fun p => p.1 == n) = none := by
  induction l with
  | nil => rfl
  | cons a l ih =>
    by_cases h : a.1 = n
    · simp [List.filter_cons, h, ih]
    · simp [List.filter_cons, h, List.find?_cons, ih]

theorem lookupDir_setDir (st : MgrState) (n v : String) :
    lookupDir (setDir st n v) n = some v := by
  unfold lookupDir setDir removeDir
  rw [List.find?_append, find?_filter_ne]
  simp [List.find?_cons]

theorem hasDir_removeDir (st : MgrState) (n : String) :
    hasDir (removeDir st n) n = false := by
  unfold hasDir removeDir
  rw [List.any_filter]
  simp

/-- If worktree creation succeeds for every candidate before index `m` and
fails at index `m`, the creation loop re-raises that error. -/
theorem createLoop_error (env : AEnv) (tf : String) :
    ∀ (cs : List Candidate) (k m : Nat) (e : String),
      m < cs.length → (∀ j, j < m → env.createWT (k + j) = Except.ok ()) →
      env.createWT (k + m) = Except.error e →
      (createLoop env tf cs k).1 = Except.error e := by
  intro cs
  induction cs with
  | nil => intro k m e hm; simp at hm
  | cons c rest ih =>
    intro k m e hm hok herr
    cases m with
    | zero =>
      rw [Nat.add_zero] at herr
      simp [createLoop, herr]
    | succ m' =>
      have h0 : env.createWT k = Except.ok () := by
        have := hok 0 (Nat.succ_pos m')
        rwa [Nat.add_zero] at this
      simp only [createLoop, h0]
      have hrec := ih (k + 1) m' e (by simpa using hm)
        (fun j hj => by
          have := hok (j + 1) (by omega)
          rwa [show k + (j + 1) = k + 1 + j by omega] at this)
        (by rwa [show k + 1 + m' = k + (m' + 1) by omega])
      rw [hrec]
      rfl

/-! ### Claim theorems -/

/-- C1 counterexample: a single submitted task whose function raises is
not converted into a `file_error` or `test_failure` result —
`run_validations` re-raises the exception at `future.result()` and
returns no result list at all. -/
theorem run_validations_reraises_task_exception :
    run_validations [0] [Except.error "boom"] = Except.error "boom" := by decide

/-- C1 (amended): exceptions inside `validate_candidate`'s guarded
regions (file writes, syntax validation, the pytest subprocess) are
converted into result dicts, so a task only raises out of unguarded code
such as `os.makedirs`; and when no submitted task raises,
`run_validations` returns exactly one result per submitted task.  An
exception that does escape a task's function propagates out of
`run_validations` (see the counterexample). -/
theorem task_exception_containment_amended :
    (∀ (env : ValEnv) (wt tg c : String) (tc : Option String),
      (∀ d, env.makedirs d = Except.ok ()) →
      isOkE (validate_candidate env wt tg c tc) = true) ∧
    (∀ (order : List Nat) (tasks : List (Except String VResult)),
      (∀ t ∈ tasks, isOkE t = true) → order.Perm (List.range tasks.length) →
      ∃ rs, run_validations order tasks = Except.ok rs ∧ rs.length = tasks.length) :=
  ⟨fun env wt tg c tc h => vc_no_raise env wt tg c tc h,
   fun order tasks h hp => run_validations_all_ok order tasks h hp⟩

/-- C1 witness: the amended theorem applied at a concrete all-succeeding
validation environment and at a concrete two-task pool with completion
order `[1, 0]`. -/
theorem task_exception_containment_amended_witness :
    isOkE (validate_candidate envOkVal "w" "sandbox/a.py" "z = 1" none) = true ∧
    (∃ rs, run_validations [1, 0]
        [Except.ok ⟨"success", "", some "a"⟩, Except.ok ⟨"test_failure", "boom", none⟩] =
          Except.ok rs ∧ rs.length = 2) :=
  ⟨task_exception_containment_amended.1 envOkVal "w" "sandbox/a.py" "z = 1" none
      (fun _ => rfl),
   task_exception_containment_amended.2 [1, 0]
      [Except.ok ⟨"success", "", some "a"⟩, Except.ok ⟨"test_failure", "boom", none⟩]
      (by decide) (by decide)⟩

/-- C2: the claim says `validate_candidate` writes only under its
workspace root even for an absolute `target_path` into the primary tree;
the code instead computes `os.path.relpath(target, wt_path)`, whose `..`
components walk back out of the worktree, so the write lands on the
primary tree's own file.  Evaluated at the failing input
`wt_path = "/repo/.agent_worktrees/val-0"`,
`target = "/repo/sandbox/calc.py"`. -/
theorem validate_candidate_escapes_workspace_on_abs_path :
    validate_candidate envOkVal "/repo/.agent_worktrees/val-0" "/repo/sandbox/calc.py"
        "x = 1" none =
      Except.ok (⟨"success", "", some "x = 1"⟩,
        [VEv.writeAttempt "/repo/.agent_worktrees/val-0/../../sandbox/calc.py"]) ∧
    normpath "/repo/.agent_worktrees/val-0/../../sandbox/calc.py" = "/repo/sandbox/calc.py" ∧
    pyStartsWith (normpath "/repo/.agent_worktrees/val-0/../../sandbox/calc.py")
      "/repo/.agent_worktrees/val-0/" = false ∧
    pyStartsWith (normpath "/repo/.agent_worktrees/val-0/../../sandbox/calc.py")
      "/repo/" = true := by decide

/-- C3: the cleanup step runs unconditionally — whatever the outcomes of
generation, worktree creation, validation, selection and apply (all
quantified over by `env`), after the round no worktree directory
remains, and the final event destroys exactly the pre-existing
directories plus every directory recorded as created during the round
(so with an initially empty root, the created and destroyed counts are
equal). -/
theorem round_cleanup_unconditional :
    ∀ (env : AEnv) (fs : FS) (pre : List String) (t : String),
      (apply_changes env fs pre t).2.2.1 = [] ∧
      (apply_changes env fs pre t).2.2.2.getLast? =
        some (AEv.cleanupAll (pre ++ createdNames (apply_changes env fs pre t).2.2.2)) :=
  fun env fs pre t => ⟨rfl, apply_changes_trace_last env fs pre t⟩

/-- C4 counterexample: two distinct candidates (different slots, so
different worktrees `val-0` and `val-1`) with the same proposed source
produce byte-identical result dicts — the result carries no identifier
of its originating candidate, so downstream logic cannot match a result
back to its candidate. -/
theorem validation_results_lack_candidate_id :
    (validate_candidate envOkVal "/repo/.agent_worktrees/val-0" "sandbox/calc.py"
        "x = 1" (some "")).map Prod.fst =
      (validate_candidate envOkVal "/repo/.agent_worktrees/val-1" "sandbox/calc.py"
        "x = 1" (some "")).map Prod.fst ∧
    "/repo/.agent_worktrees/val-0" ≠ "/repo/.agent_worktrees/val-1" := by decide

/-- C4 (amended): result dicts carry no candidate identifier; what a
successful result does carry is the exact validated source text in its
`code` field (and only successful results carry it), which is what the
downstream selection applies. -/
theorem validation_result_carries_source_text :
    ∀ (env : ValEnv) (wt tg c : String) (tc : Option String) (r : VResult) (evs : List VEv),
      validate_candidate env wt tg c tc = Except.ok (r, evs) →
      (r.status = "success" → r.code = some c) ∧
      (r.status ≠ "success" → r.code = none) :=
  fun env wt tg c tc r evs h => vc_code_spec env wt tg c tc r evs h

/-- C4 witness: the amended theorem applied to a concrete successful
validation, whose result's `code` field is the validated source. -/
theorem validation_result_carries_source_text_witness :
    (VResult.mk "success" "" (some "y = 2")).code = some "y = 2" :=
  (validation_result_carries_source_text envOkVal "w" "sandbox/a.py" "y = 2" none
      ⟨"success", "", some "y = 2"⟩ [VEv.writeAttempt "w/sandbox/a.py"] (by decide)).1 rfl

/-- C5 counterexample: with three candidates and a worktree-creation
failure on candidate 2 (index 1), the whole round aborts — `apply_changes`
re-raises the error and no candidate (in particular neither candidate 1
nor 3) receives any validation result. -/
theorem worktree_failure_aborts_whole_round_cx :
    (apply_changes env3 [] [] "sandbox/x.py").1 = Except.error "boom" ∧
    resultsIn (apply_changes env3 [] [] "sandbox/x.py").2.2.2 = [] := by decide

/-- C5 (amended): a worktree-creation failure for any candidate aborts the
entire round, not just that candidate's slot: the error propagates out of
`apply_changes`, no candidate receives a validation result, the primary
tree is untouched — and the `finally:` cleanup still leaves no worktree
behind. -/
theorem worktree_failure_aborts_whole_round :
    ∀ (env : AEnv) (fs : FS) (pre : List String) (t : String)
      (cands : List Candidate) (i : Nat) (e : String),
      env.gen = Except.ok cands → cands ≠ [] → i < cands.length →
      (∀ j, j < i → env.createWT j = Except.ok ()) →
      env.createWT i = Except.error e →
      (apply_changes env fs pre t).1 = Except.error e ∧
      (apply_changes env fs pre t).2.1 = fs ∧
      resultsIn (apply_changes env fs pre t).2.2.2 = [] ∧
      (apply_changes env fs pre t).2.2.1 = [] := by
  intro env fs pre t cands i e hg hne hi hok herr
  have hcl : (createLoop env (forceSandbox t) cands 0).1 = Except.error e :=
    createLoop_error env (forceSandbox t) cands 0 i e hi
      (fun j hj => by simpa using hok j hj)
      (by simpa using herr)
  have hne' : cands.isEmpty = false := by
    cases cands with
    | nil => exact absurd rfl hne
    | cons a l => rfl
  refine ⟨?_, ?_, ?_, rfl⟩
  · show (apply_body env fs (forceSandbox t)).1 = Except.error e
    simp [apply_body, hg, hne', hcl]
  · show (apply_body env fs (forceSandbox t)).2.1 = fs
    simp [apply_body, hg, hne', hcl]
  · rw [apply_changes_resultsIn]
    simp [apply_body, hg, hne', hcl, resultsIn_map_created]

/-- C5 witness: the amended theorem applied at the concrete three-candidate
round whose second worktree creation fails. -/
theorem worktree_failure_aborts_whole_round_witness :
    (apply_changes env3 [] [] "sandbox/y.py").1 = Except.error "boom" ∧
    (apply_changes env3 [] [] "sandbox/y.py").2.1 = [] ∧
    resultsIn (apply_changes env3 [] [] "sandbox/y.py").2.2.2 = [] ∧
    (apply_changes env3 [] [] "sandbox/y.py").2.2.1 = [] :=
  worktree_failure_aborts_whole_round env3 [] [] "sandbox/y.py"
    [⟨"a = 1", ""⟩, ⟨"b = 2", ""⟩, ⟨"c = 3", ""⟩] 1 "boom" rfl (by decide) (by decide)
    (fun j hj => by
      have hj0 : j = 0 := by omega
      subst hj0
      rfl)
    rfl

/-- C6: for a relative target path, the primary tree is written only when
some recorded validation result has status `"success"` and the lowered
confirmation answer is `"y"`; with no success, or on rejection, the tree
is exactly unchanged; and on an affirmative apply the target file holds
exactly the first successful result's `code` — which, by the last
conjunct, is the winning candidate's validated source text. -/
theorem primary_tree_write_gate :
    ∀ (env : AEnv) (fs : FS) (pre : List String) (t : String),
      pyStartsWith t "/" = false →
      ((∀ r, r ∈ resultsIn (apply_changes env fs pre t).2.2.2 → r.status ≠ "success") →
        (apply_changes env fs pre t).2.1 = fs) ∧
      (pyLower env.answer ≠ "y" → (apply_changes env fs pre t).2.1 = fs) ∧
      (∀ w, (resultsIn (apply_changes env fs pre t).2.2.2).find?
            (fun r => decide (r.status = "success")) = some w →
        pyLower env.answer = "y" →
        (apply_changes env fs pre t).2.1 = fsWrite fs (forceSandbox t) ((w.code).getD "")) ∧
      (∀ (ve : ValEnv) (wt tg c : String) (tc : Option String) (r : VResult) (evs : List VEv),
        validate_candidate ve wt tg c tc = Except.ok (r, evs) →
        r.status = "success" → r.code = some c) := by
  intro env fs pre t _ht
  refine ⟨?_, ?_, ?_, ?_⟩
  · intro hno
    rcases apply_changes_fs_cases env fs pre t with ⟨hfs, _⟩ | ⟨w, hw, _hy, _hfs⟩
    · exact hfs
    · exfalso
      have hmem := List.mem_of_find?_eq_some hw
      have hsucc := List.find?_some hw
      simp only [decide_eq_true_eq] at hsucc
      exact hno w hmem hsucc
  · intro hny
    rcases apply_changes_fs_cases env fs pre t with ⟨hfs, _⟩ | ⟨w, _hw, hy, _⟩
    · exact hfs
    · exact absurd hy hny
  · intro w hw hy
    rcases apply_changes_fs_cases env fs pre t with ⟨_, hnone | hny⟩ | ⟨w', hw', _, hfs⟩
    · rw [hw] at hnone; cases hnone
    · exact absurd hy hny
    · rw [hw] at hw'
      injection hw' with h2
      rw [h2]; exact hfs
  · intro ve wt tg c tc r evs h hs
    exact (vc_code_spec ve wt tg c tc r evs h).1 hs

/-- C6 witness: the gate applied at a concrete round with a successful
candidate but a negative answer — the (empty) primary tree is unchanged. -/
theorem primary_tree_write_gate_witness :
    (apply_changes envN [] [] "x.py").2.1 = [] :=
  (primary_tree_write_gate envN [] [] "x.py" (by decide)).2.1 (by decide)

/-- C7 counterexample: for the source `"def f():\n    return ((\n"` the
parser reports line 2, whose literal text is the indented
`"    return (("`; the code strips it, so the emitted diagnostic does not
contain the offending line's literal text, only its de-indented form. -/
theorem synDiag_drops_indentation :
    (splitOnChar '\n' srcSyn)[1]? = some "    return ((" ∧
    validate_candidate envSyn "/repo/.agent_worktrees/val-0" "sandbox/calc.py" srcSyn none =
      Except.ok (⟨"syntax_error", synMessage eSyn, none⟩,
        [VEv.writeAttempt "/repo/.agent_worktrees/val-0/sandbox/calc.py"]) ∧
    ¬ strContains (synMessage eSyn) "    return ((" ∧
    strContains (synMessage eSyn) "return ((" := by decide

/-- C7 (amended): for every source the parser rejects (with line number,
message, and non-empty line text), `validate_candidate` returns a
`"syntax_error"` result whose diagnostic contains the reported line
number, the parser's message, and the whitespace-stripped text of the
offending line — and the trace shows no test execution. -/
theorem synDiag_contents :
    ∀ (env : ValEnv) (wt tf code : String) (tc : Option String) (e : SynErr) (t : String),
      env.parse code = ParseOutcome.synErr e →
      e.text = some t → t ≠ "" →
      pyIsAbs tf = false →
      env.makedirs (dirname (pyJoin wt tf)) = Except.ok () →
      env.writeFile (pyJoin wt tf) code = Except.ok () →
      validate_candidate env wt tf code tc =
        Except.ok (⟨"syntax_error", synMessage e, none⟩, [VEv.writeAttempt (pyJoin wt tf)]) ∧
      strContains (synMessage e) (toString e.lineno) ∧
      strContains (synMessage e) e.msg ∧
      strContains (synMessage e) (pyStrip t) ∧
      (∀ f wd, VEv.pytestRun f wd ∉ [VEv.writeAttempt (pyJoin wt tf)]) := by
  intro env wt tf code tc e t hp htext htne habs hmk hwf
  have hmsg1 : synMessage e = "Syntax Error on line " ++ toString e.lineno ++
      (": " ++ e.msg ++ "\n" ++ "OFFENDING CODE: >> " ++ pyStrip t ++ " <<\n" ++
        "Requirement: Ensure indentation is 4 spaces and brackets match.") := by
    simp [synMessage, htext, htne, String.append_assoc]
  have hmsg2 : synMessage e = ("Syntax Error on line " ++ toString e.lineno ++ ": ") ++
      e.msg ++ ("\n" ++ "OFFENDING CODE: >> " ++ pyStrip t ++ " <<\n" ++
        "Requirement: Ensure indentation is 4 spaces and brackets match.") := by
    simp [synMessage, htext, htne, String.append_assoc]
  have hmsg3 : synMessage e = ("Syntax Error on line " ++ toString e.lineno ++ ": " ++
      e.msg ++ "\n" ++ "OFFENDING CODE: >> ") ++ pyStrip t ++ (" <<\n" ++
        "Requirement: Ensure indentation is 4 spaces and brackets match.") := by
    simp [synMessage, htext, htne, String.append_assoc]
  refine ⟨?_, ?_, ?_, ?_, ?_⟩
  · simp [validate_candidate, habs, hmk, hwf, validate_python_code, hp]
  · rw [hmsg1]; exact strContains_mid _ _ _
  · rw [hmsg2]; exact strContains_mid _ _ _
  · rw [hmsg3]; exact strContains_mid _ _ _
  · intro f wd hmem
    simp at hmem

/-- C7 witness: the amended theorem at the concrete malformed source —
the diagnostic contains the stripped offending line and the parser
message. -/
theorem synDiag_contents_witness :
    strContains (synMessage eSyn) (pyStrip "    return ((\n") ∧
    strContains (synMessage eSyn) "invalid syntax" :=
  ⟨(synDiag_contents envSyn "/repo/.agent_worktrees/val-0" "sandbox/calc.py" srcSyn none
      eSyn "    return ((\n" rfl rfl (by decide) (by decide) rfl rfl).2.2.2.1,
   (synDiag_contents envSyn "/repo/.agent_worktrees/val-0" "sandbox/calc.py" srcSyn none
      eSyn "    return ((\n" rfl rfl (by decide) (by decide) rfl rfl).2.2.1⟩

/-- C8: workspace destruction never raises (its result is always a normal
return, whatever the git and rmtree outcomes); calling it when the
directory no longer exists does nothing; and when the git removal raises,
the exception is swallowed and the `finally:` forced recursive delete
still runs (the final state is exactly the rmtree outcome applied to the
directory). -/
theorem cleanup_worktree_spec :
    (∀ (env : MEnv) (st : MgrState) (name : String),
      isOkE (cleanup_worktree env st name) = true) ∧
    (∀ (env : MEnv) (st : MgrState) (name : String),
      hasDir st name = false → cleanup_worktree env st name = Except.ok st) ∧
    (∀ (env : MEnv) (st : MgrState) (name m : String),
      hasDir st name = true → env.gitRemove name = GitRemoveOut.raised m →
      cleanup_worktree env st name =
        Except.ok (if env.rmtree name then removeDir st name else st)) := by
  refine ⟨?_, ?_, ?_⟩
  · intro env st name
    unfold cleanup_worktree
    split <;> simp [isOkE]
  · intro env st name h
    simp [cleanup_worktree, h]
  · intro env st name m h hr
    unfold cleanup_worktree
    rw [if_neg (by simp [h]), hr]
    simp [h]

/-- C8 witness: a raised git removal on an existing directory is swallowed
and the forced delete removes the directory. -/
theorem cleanup_worktree_spec_witness :
    cleanup_worktree envW stT "val-0" = Except.ok [] :=
  (cleanup_worktree_spec.2.2 envW stT "val-0" "oops" (by decide) rfl).trans (by decide)

/-- C9 counterexample: for the absolute target `"/tmp/x.py"` (which does
not start with `"sandbox/"`), `os.path.join("sandbox", target)` discards
the prefix entirely, and the round reads and — on confirmation — writes
`"/tmp/x.py"` itself, a path not under `sandbox/`. -/
theorem absolute_target_bypasses_sandbox_prefix :
    forceSandbox "/tmp/x.py" = "/tmp/x.py" ∧
    pyStartsWith "/tmp/x.py" "sandbox/" = false ∧
    (apply_changes envY [] [] "/tmp/x.py").2.1 = [("/tmp/x.py", "x = 1")] ∧
    AEv.read "/tmp/x.py" ∈ (apply_changes envY [] [] "/tmp/x.py").2.2.2 := by decide

/-- C9 (amended): for every relative `target_file`, the sandbox forcing
works as claimed — every read of the original content and every confirmed
primary-tree write in the round happens at a path starting with
`"sandbox/"`. -/
theorem relative_target_forced_into_sandbox :
    ∀ (env : AEnv) (fs : FS) (pre : List String) (t : String),
      pyStartsWith t "/" = false →
      (∀ p, AEv.read p ∈ (apply_changes env fs pre t).2.2.2 →
        pyStartsWith p "sandbox/" = true) ∧
      (∀ p, AEv.writePrimary p ∈ (apply_changes env fs pre t).2.2.2 →
        pyStartsWith p "sandbox/" = true) := by
  intro env fs pre t ht
  have h1 : (apply_changes env fs pre t).2.2.2 =
      AEv.read (forceSandbox t) :: ((apply_body env fs (forceSandbox t)).2.2.2 ++
        [AEv.cleanupAll (pre ++ (apply_body env fs (forceSandbox t)).2.2.1)]) := rfl
  constructor
  · intro p hp
    rw [h1] at hp
    rcases List.mem_cons.mp hp with heq | hp2
    · injection heq with h2
      rw [h2]
      exact forceSandbox_rel t ht
    · rcases List.mem_append.mp hp2 with hb | hcl
      · exact absurd hb (apply_body_no_read env fs (forceSandbox t) p)
      · simp at hcl
  · intro p hp
    rw [h1] at hp
    rcases List.mem_cons.mp hp with heq | hp2
    · simp at heq
    · rcases List.mem_append.mp hp2 with hb | hcl
      · rw [apply_body_write_tf env fs (forceSandbox t) p hb]
        exact forceSandbox_rel t ht
      · simp at hcl

/-- C9 witness: the amended theorem at a concrete round with relative
target `"x.py"`, whose read path is `"sandbox/x.py"`. -/
theorem relative_target_forced_into_sandbox_witness :
    pyStartsWith "sandbox/x.py" "sandbox/" = true :=
  (relative_target_forced_into_sandbox envY [] [] "x.py" (by decide)).1
    "sandbox/x.py" (by decide)

/-- C10: `create_worktree` never returns a stale pre-existing workspace:
whenever it returns a path, the directory under that name carries the
fresh branch `agent-<name>-<now>` created by this very call; and when the
directory pre-exists, it is destroyed first — even if the subsequent
`git worktree add` fails, the old directory is already gone and the call
raises instead of returning the stale workspace. -/
theorem create_worktree_fresh :
    (∀ (env : MEnv) (st : MgrState) (name p : String),
      (create_worktree env st name).1 = Except.ok p →
      p = wtPathM name ∧
      lookupDir (create_worktree env st name).2 name = some (mkBranch name env.time)) ∧
    (∀ (env : MEnv) (st : MgrState) (name e : String),
      hasDir st name = true → env.gitRemove name = GitRemoveOut.removed →
      env.gitAdd name (mkBranch name env.time) = Except.error e →
      create_worktree env st name =
        (Except.error ("Failed to create worktree: " ++ e), removeDir st name)) := by
  constructor
  · intro env st name p hok
    unfold create_worktree at hok ⊢
    cases hstep : (if hasDir st name then cleanup_worktree env st name else Except.ok st) with
    | error err =>
      exfalso
      by_cases hd : hasDir st name
      · obtain ⟨st1, h1⟩ := cleanup_isOk env st name
        rw [if_pos hd, h1] at hstep
        cases hstep
      · rw [if_neg hd] at hstep
        cases hstep
    | ok st1 =>
      rw [hstep] at hok
      cases hadd : env.gitAdd name (mkBranch name env.time) with
      | error e =>
        simp only [hadd] at hok
        cases hok
      | ok u =>
        simp only [hadd, Except.ok.injEq] at hok ⊢
        exact ⟨hok.symm, lookupDir_setDir st1 name (mkBranch name env.time)⟩
  · intro env st name e hd hrem hadd
    have hcl : cleanup_worktree env st name = Except.ok (removeDir st name) := by
      unfold cleanup_worktree
      rw [if_neg (by simp [hd]), hrem]
      dsimp only
      simp [hasDir_removeDir]
    unfold create_worktree
    rw [if_pos hd, hcl, hadd]

/-- C10 witness: re-creating `val-0` over a stale directory (old branch
`agent-val-0-7`) at time 42 yields a workspace on the fresh branch
`agent-val-0-42`. -/
theorem create_worktree_fresh_witness :
    lookupDir (create_worktree envT stT "val-0").2 "val-0" = some (mkBranch "val-0" 42) :=
  (create_worktree_fresh.1 envT stT "val-0" ".agent_worktrees/val-0" (by decide)).2
